import Mathlib

/-!
# VizAI frontend — verification of the data-normalization / aggregation core

Shallow embedding of the data transformation layer of the VizAI dashboard
(`src/api/api.ts` and `src/utils/formatting.ts`), together with theorems
settling the specification claims about it.

Modelling conventions:
* JavaScript values stored in backend records are modelled by `JVal`
  (strings, finite numbers as rationals — every finite double is an exact
  rational, so fractional payload values such as `2.5` pass through the
  model unchanged — and `NaN`); record field absence (`undefined`) is
  modelled by an `Option`-returning lookup.
* Millisecond instants (`Date.getTime()`, `Date.now()`) are `Int` (the API
  returns integral milliseconds); string-to-number coercion is modelled for
  integer-valued strings only; fractional results (average durations,
  percentages, confidence scores) are `ℚ`.
* Environment effects (`new Date()`, `Date.now()`, `Math.random()`, and the
  engine's generic date parser) are passed in explicitly through `JsEnv`;
  `Option` results model JavaScript `Invalid Date` / `NaN`.
* Code that can raise (`TypeError` on calling a string method of a number,
  `RangeError` from `toISOString` on an invalid date, the explicit
  `throw new Error('Invalid event data')`) is modelled with `Except Unit`.
-/

/-- A JavaScript value as it occurs in the backend payloads handled by the
normalizer: a string, a finite number (a rational: every finite IEEE double
is an exact rational, including fractional values such as `2.5`), or
`NaN`. -/
inductive JVal where
  | str : String → JVal
  | num : ℚ → JVal
  | nan : JVal
  deriving DecidableEq, Repr

/-- JavaScript truthiness of a `JVal`: `""`, `0` and `NaN` are falsy. -/
def JVal.truthy : JVal → Bool
  | .str s => s ≠ ""
  | .num n => n ≠ 0
  | .nan => false

/-- A raw backend record (`event: any` in the source): an untyped key-value
structure. -/
def RawRecord := List (String × JVal)

/-- Property access `record[key]`: `none` models JavaScript `undefined`. -/
def getField (r : RawRecord) (k : String) : Option JVal :=
  match r with
  | [] => none
  | (k', v) :: rest => if k' = k then some v else getField rest k

/-- The JavaScript `record.k1 || record.k2 || ... || default` chains used
throughout `transformBehaviorEvent`: the value of the first candidate key
whose value is truthy, else the default. -/
def orElseField (r : RawRecord) (keys : List String) (default : JVal) : JVal :=
  match keys with
  | [] => default
  | k :: ks =>
    match getField r k with
    | some v => if v.truthy then v else orElseField r ks default
    | none => orElseField r ks default

/-- A defaultless `a || b || ... || z` chain (used for the timestamp and
environmental-context fields): the first truthy value, else the value of the
last key (possibly `undefined`, i.e. `none`). -/
def jsOrChain (r : RawRecord) (keys : List String) : Option JVal :=
  match keys with
  | [] => none
  | [k] =>
    match getField r k with
    | some v => some v
    | none => none
  | k :: ks =>
    match getField r k with
    | some v => if v.truthy then some v else jsOrChain r ks
    | none => jsOrChain r ks

/-- Truthiness of a possibly-`undefined` value. -/
def optTruthy : Option JVal → Bool
  | none => false
  | some v => v.truthy

/-- `Modelled from the spec:` the Field Resolver contract of spec §4.1
("return the value of the first key present (including falsy-but-defined
values such as `0` or `""`), else a caller-supplied default"), stated in the
spec's own words for comparison with the source's `||` chains. -/
def fieldResolveSpec (r : RawRecord) (keys : List String) (default : JVal) : JVal :=
  match keys with
  | [] => default
  | k :: ks =>
    match getField r k with
    | some v => v
    | none => fieldResolveSpec r ks default

/-- The candidate key list for the behavior code (source line 134). -/
def behaviorKeys : List String :=
  ["Behaviour", "behaviour", "behavior_type", "behaviour_type", "behavior"]

-- ### Shared helper lemmas about field resolution

theorem orElseField_of_all_absent (r : RawRecord) (d : JVal) :
    ∀ keys : List String, (∀ k ∈ keys, getField r k = none) →
      orElseField r keys d = d := by
  intro keys h
  induction keys with
  | nil => rfl
  | cons k ks ih =>
    have hk : getField r k = none := h k (by simp)
    simp only [orElseField, hk]
    exact ih fun k' hk' => h k' (by simp [hk'])

theorem orElseField_of_no_truthy (r : RawRecord) (d : JVal) :
    ∀ keys : List String,
      (∀ k ∈ keys, ∀ v, getField r k = some v → v.truthy = false) →
      orElseField r keys d = d := by
  intro keys h
  induction keys with
  | nil => rfl
  | cons k ks ih =>
    have tail : orElseField r ks d = d :=
      ih fun k' hk' v hv => h k' (by simp [hk']) v hv
    simp only [orElseField]
    cases hk : getField r k with
    | none => exact tail
    | some v => simp [h k (by simp) v hk, tail]

theorem orElseField_first_truthy (r : RawRecord) (d : JVal) :
    ∀ (ks₁ : List String) (k : String) (ks₂ : List String) (v : JVal),
      (∀ k' ∈ ks₁, ∀ v', getField r k' = some v' → v'.truthy = false) →
      getField r k = some v → v.truthy = true →
      orElseField r (ks₁ ++ k :: ks₂) d = v := by
  intro ks₁ k ks₂ v hfalsy hk hv
  induction ks₁ with
  | nil => simp [orElseField, hk, hv]
  | cons k' ks ih =>
    have tail : orElseField r (ks ++ k :: ks₂) d = v :=
      ih fun k'' hk'' v'' hv'' => hfalsy k'' (by simp [hk'']) v'' hv''
    simp only [List.cons_append, orElseField]
    cases hk' : getField r k' with
    | none => exact tail
    | some v' => simp [hfalsy k' (by simp) v' hk', tail]

-- ### Claim C2: field resolution

/-- **C2, counterexample.** The claim states that field resolution returns the
value of the first *present* candidate key, including present-but-falsy values
such as the empty string. On the record `{ Behaviour: "" }` the source's `||`
chain (`orElseField`) skips the present-but-falsy `""` and returns the
caller-supplied default `'RECUMBENT'`, while the claimed contract
(`fieldResolveSpec`) returns `""`. -/
theorem fieldResolve_claim_false :
    orElseField [("Behaviour", JVal.str "")] behaviorKeys (JVal.str "RECUMBENT")
        = JVal.str "RECUMBENT" ∧
    fieldResolveSpec [("Behaviour", JVal.str "")] behaviorKeys (JVal.str "RECUMBENT")
        = JVal.str "" ∧
    JVal.str "RECUMBENT" ≠ JVal.str "" := by
  refine ⟨rfl, rfl, by decide⟩

/-- **C2, amended.** For every record and ordered candidate key list, the
source's field resolution (`||` chain) returns the caller-supplied default
when no candidate key holds a truthy value (present-but-falsy values such as
`0`, `""` or `NaN` are skipped exactly like absent keys), and otherwise
returns the value of the first candidate key holding a truthy value; it is a
total function (never throws). -/
theorem fieldResolve_amended (r : RawRecord) (d : JVal) :
    (∀ keys : List String,
        (∀ k ∈ keys, ∀ v, getField r k = some v → v.truthy = false) →
        orElseField r keys d = d) ∧
    (∀ (ks₁ : List String) (k : String) (ks₂ : List String) (v : JVal),
        (∀ k' ∈ ks₁, ∀ v', getField r k' = some v' → v'.truthy = false) →
        getField r k = some v → v.truthy = true →
        orElseField r (ks₁ ++ k :: ks₂) d = v) :=
  ⟨orElseField_of_no_truthy r d, orElseField_first_truthy r d⟩

/-- **C2, witness.** Concrete instance of `fieldResolve_amended`: on
`{ Behaviour: "", behaviour: "PACING" }` the chain skips the falsy
`Behaviour` and returns the truthy `behaviour` value. -/
theorem fieldResolve_amended_witness :
    orElseField [("Behaviour", JVal.str ""), ("behaviour", JVal.str "PACING")]
        (["Behaviour"] ++ "behaviour" :: ["behavior_type", "behaviour_type", "behavior"])
        (JVal.str "RECUMBENT") = JVal.str "PACING" :=
  (fieldResolve_amended _ _).2 ["Behaviour"] "behaviour" _ _
    (by intro k' hk' v' hv'
        simp only [List.mem_singleton] at hk'
        subst hk'
        simp only [getField, reduceIte, Option.some.injEq] at hv'
        subst hv'
        rfl)
    (by rfl) (by rfl)

-- ### String primitives (char-list models of the JavaScript string methods)

/-- `String.prototype.toUpperCase()` (ASCII range, as exercised here). -/
def jsToUpper (s : String) : String := String.mk (s.data.map Char.toUpper)

/-- Whitespace stripped by `String.prototype.trim()`. -/
def isJsSpace (c : Char) : Bool := c = ' ' || c = '\t' || c = '\n' || c = '\r'

/-- `String.prototype.trim()`. -/
def trimChars (l : List Char) : List Char :=
  ((l.dropWhile isJsSpace).reverse.dropWhile isJsSpace).reverse

/-- `String.prototype.split` against a single-character class such as
`/[-_]/`: separators delimit (possibly empty) tokens. -/
def splitOnSep (p : Char → Bool) : List Char → List (List Char)
  | [] => [[]]
  | c :: cs =>
    if p c then [] :: splitOnSep p cs
    else
      match splitOnSep p cs with
      | [] => [[c]]
      | t :: ts => (c :: t) :: ts

-- ### Behavior Label Mapper (`titleCaseBehavior`, `getFrontendBehaviorType`)

/-- `BACKEND_TO_FRONTEND_BEHAVIOR_MAP` from `src/api/api.ts` (lines 43-72). -/
def behaviorTypeMap : List (String × String) :=
  [("PACING", "Pacing"),
   ("PACING_START", "Pacing Start"),
   ("PACING_STOPPED", "Pacing Stopped"),
   ("PACING_END", "Pacing End"),
   ("RECUMBENT", "Recumbent"),
   ("RECUMBENT_START", "Recumbent Start"),
   ("RECUMBENT_END", "Recumbent End"),
   ("RECUMBENT_STOPPED", "Recumbent Stopped"),
   ("NON-RECUMBENT", "Non Recumbent"),
   ("NON_RECUMBENT", "Non Recumbent"),
   ("SCRATCHING", "Scratching"),
   ("SCRATCHING_START", "Scratching Start"),
   ("SCRATCHING_END", "Scratching End"),
   ("SCRATCHING_STOPPED", "Scratching Stopped"),
   ("SELF_DIRECTED", "Self-directed"),
   ("SELF_DIRECTED_START", "Self-directed Start"),
   ("SELF_DIRECTED_END", "Self-directed End"),
   ("SELF_DIRECTED_STOPPED", "Self-directed Stopped"),
   ("SELF-DIRECTED", "Self-directed"),
   ("SELF-DIRECTED_START", "Self-directed Start"),
   ("SELF-DIRECTED_END", "Self-directed End"),
   ("SELF-DIRECTED_STOPPED", "Self-directed Stopped"),
   ("Pacing", "Pacing"),
   ("Recumbent", "Recumbent"),
   ("Non Recumbent", "Non Recumbent"),
   ("Scratching", "Scratching"),
   ("Self-directed", "Self-directed")]

/-- JavaScript object property lookup on a string-keyed table. -/
def lookupKey : List (String × String) → String → Option String
  | [], _ => none
  | (k, v) :: rest, key => if k = key then some v else lookupKey rest key

/-- `word.charAt(0).toUpperCase() + word.slice(1).toLowerCase()`. -/
def capWord (w : String) : String :=
  match w.data with
  | [] => ""
  | c :: cs => String.mk (c.toUpper :: cs.map Char.toLower)

/-- `Array.prototype.join(' ')`. -/
def joinSpace : List String → String
  | [] => ""
  | [w] => w
  | w :: ws => w ++ " " ++ joinSpace ws

/-- The token list of `titleCaseBehavior`:
`backendType.trim().split(/[-_]/).filter(Boolean)`. -/
def behaviorTokens (backendType : String) : List String :=
  ((splitOnSep (fun c => c = '-' || c = '_') (trimChars backendType.data)).map
    String.mk).filter (· ≠ "")

/-- `titleCaseBehavior` (source lines 75-83): the empty input maps to
`"Unknown"`; otherwise trim, split on `-`/`_`, drop empty tokens, title-case
each token and join with spaces. -/
def titleCaseBehavior (backendType : String) : String :=
  if backendType = "" then "Unknown"
  else joinSpace ((behaviorTokens backendType).map capWord)

/-- `getFrontendBehaviorType` (source lines 101-124). -/
def getFrontendBehaviorType (backendType : String) : String :=
  if backendType = "" then "Unknown"
  else
    match lookupKey behaviorTypeMap backendType with
    | some v => v
    | none =>
      match lookupKey behaviorTypeMap (jsToUpper backendType) with
      | some v => v
      | none =>
        let titleCased := titleCaseBehavior backendType
        if titleCased = "Self Directed" then "Self-directed"
        else if "Self Directed ".data.isPrefixOf titleCased.data then
          "Self-directed " ++ String.mk (titleCased.data.drop 14)
        else if titleCased = "" then "Unknown" else titleCased

/-- `Modelled from the spec:` the dynamic-fallback procedure exactly as claim
C6 words it ("splits the code on '-' and '_', title-cases each token, and
joins with spaces"), with no trimming, no empty-token filtering and no
empty-result special case. -/
def genericLabelSpec (code : String) : String :=
  joinSpace (((splitOnSep (fun c => c = '-' || c = '_') code.data).map
    String.mk).map capWord)

/-- `Modelled from the spec:` the amended dynamic-fallback procedure: trim,
split on `-`/`_`, drop empty tokens, title-case, join with spaces; apply the
`Self Directed` re-hyphenation; if no tokens remain, the label is
`"Unknown"`. -/
def genericLabelAmendedSpec (code : String) : String :=
  let tokens := ((splitOnSep (fun c => c = '-' || c = '_')
    (trimChars code.data)).map String.mk).filter (· ≠ "")
  let t := joinSpace (tokens.map capWord)
  if t = "Self Directed" then "Self-directed"
  else if "Self Directed ".data.isPrefixOf t.data then
    "Self-directed " ++ String.mk (t.data.drop 14)
  else if tokens = [] then "Unknown" else t

theorem capWord_ne_empty (w : String) (hw : w ≠ "") : capWord w ≠ "" := by
  cases w with
  | mk data =>
    cases data with
    | nil => exact absurd rfl hw
    | cons c cs =>
      simp only [capWord]
      intro h
      exact List.cons_ne_nil _ _ (congrArg String.data h)

theorem joinSpace_cons_ne_empty (w : String) (ws : List String) (hw : w ≠ "") :
    joinSpace (w :: ws) ≠ "" := by
  cases ws with
  | nil => exact hw
  | cons w' ws' =>
    simp only [joinSpace]
    intro h
    have hd := congrArg String.data h
    rw [String.data_append, String.data_append] at hd
    rcases List.append_eq_nil.mp (List.append_eq_nil.mp hd).1 with ⟨h1, _⟩
    exact hw (by cases w; simp at h1; simp [h1])

-- ### Claim C6: behavior label mapping

/-- **C6, counterexample.** The claim states that *every* code not found in
the static table maps to the split/title-case/join of its tokens. The code
`"_"` is not in the table (verbatim or upper-cased); the claimed procedure
produces `" "` (two empty tokens joined by a space), but the mapper returns
`"Unknown"` because it drops empty tokens and replaces an empty generic
result by `"Unknown"`. -/
theorem labelMapper_claim_false :
    getFrontendBehaviorType "_" = "Unknown" ∧
    genericLabelSpec "_" = " " ∧
    ("Unknown" : String) ≠ " " :=
  ⟨by decide, by decide, by decide⟩

/-- **C6, amended.** Codes not found in the static table (neither verbatim nor
upper-cased) are trimmed, split on `-`/`_` with empty tokens dropped,
title-cased and joined with spaces, with the `Self Directed` re-hyphenation
applied, and with `"Unknown"` produced when no tokens remain; known codes map
via the static table (`PACING_START` → `"Pacing Start"`, `SELF_DIRECTED` →
`"Self-directed"`, `SELF_DIRECTED_END` → `"Self-directed End"`), and
`"FOO-BAR"` → `"Foo Bar"`. -/
theorem labelMapper_amended :
    (∀ code : String,
        lookupKey behaviorTypeMap code = none →
        lookupKey behaviorTypeMap (jsToUpper code) = none →
        getFrontendBehaviorType code = genericLabelAmendedSpec code) ∧
    getFrontendBehaviorType "PACING_START" = "Pacing Start" ∧
    getFrontendBehaviorType "SELF_DIRECTED" = "Self-directed" ∧
    getFrontendBehaviorType "SELF_DIRECTED_END" = "Self-directed End" ∧
    getFrontendBehaviorType "FOO-BAR" = "Foo Bar" := by
  refine ⟨?_, by decide, by decide, by decide, by decide⟩
  intro code h1 h2
  by_cases hc : code = ""
  · subst hc; decide
  · have hbt : ((splitOnSep (fun c => c = '-' || c = '_') (trimChars code.data)).map
        String.mk).filter (· ≠ "") = behaviorTokens code := rfl
    have ht : titleCaseBehavior code = joinSpace ((behaviorTokens code).map capWord) := by
      simp [titleCaseBehavior, if_neg hc]
    simp only [getFrontendBehaviorType, if_neg hc, h1, h2, genericLabelAmendedSpec, hbt, ht]
    cases htok : behaviorTokens code with
    | nil => decide
    | cons w ws =>
      have hwne : w ≠ "" := by
        have := List.mem_filter.mp (htok ▸ List.mem_cons_self w ws)
        simpa using this.2
      have hne : joinSpace ((w :: ws).map capWord) ≠ "" := by
        simpa [List.map_cons] using
          joinSpace_cons_ne_empty (capWord w) (ws.map capWord) (capWord_ne_empty w hwne)
      rw [if_neg hne, if_neg (by simp : ¬(w :: ws) = [])]

/-- **C6, witness.** `labelMapper_amended` applied at the claim's unknown code
`"FOO-BAR"`. -/
theorem labelMapper_amended_witness :
    getFrontendBehaviorType "FOO-BAR" = genericLabelAmendedSpec "FOO-BAR" :=
  labelMapper_amended.1 "FOO-BAR" (by decide) (by decide)

-- ### URL Rewriter (`convertS3UrlToHttp`, `isS3Url` from `formatting.ts`)

/-- `indexOf('/')` followed by the two `slice`s: splits at the first `/` into
(before, after); `none` when there is no `/`. -/
def splitAtFirst (c : Char) : List Char → Option (List Char × List Char)
  | [] => none
  | x :: xs =>
    if x = c then some ([], xs)
    else
      match splitAtFirst c xs with
      | none => none
      | some (a, b) => some (x :: a, b)

/-- Char-list core of `convertS3UrlToHttp` (formatting.ts lines 96-119). -/
def convChars (l : List Char) : List Char :=
  if l.isEmpty then []
  else if "http://".data.isPrefixOf l || "https://".data.isPrefixOf l then l
  else if "s3://".data.isPrefixOf l then
    match splitAtFirst '/' (l.drop 5) with
    | none => "https://".data ++ (l.drop 5 ++ ".s3.amazonaws.com".data)
    | some (b, p) => "https://".data ++ (b ++ (".s3.amazonaws.com/".data ++ p))
  else l

/-- `convertS3UrlToHttp` (formatting.ts lines 96-119). -/
def convertS3UrlToHttp (s3Url : String) : String := String.mk (convChars s3Url.data)

/-- `isS3Url` (formatting.ts lines 124-126). -/
def isS3Url (url : String) : Bool := "s3://".data.isPrefixOf url.data

-- ### Timestamp Normalizer (`formatTimestamp`, api.ts lines 145-169)

/-- Consume exactly `n` characters satisfying `p`. -/
def eatP (p : Char → Bool) : Nat → List Char → Option (List Char)
  | 0, l => some l
  | _ + 1, [] => none
  | n + 1, c :: cs => if p c then eatP p n cs else none

/-- Consume one literal character. -/
def eatLit (c : Char) : List Char → Option (List Char)
  | [] => none
  | x :: xs => if x = c then some xs else none

/-- Consume `\d{4}-\d{2}-\d{2}`. -/
def chompDate (l : List Char) : Option (List Char) :=
  (eatP Char.isDigit 4 l).bind fun l =>
  (eatLit '-' l).bind fun l =>
  (eatP Char.isDigit 2 l).bind fun l =>
  (eatLit '-' l).bind fun l =>
  eatP Char.isDigit 2 l

/-- Consume `\d{2}:\d{2}:\d{2}`. -/
def chompTime (l : List Char) : Option (List Char) :=
  (eatP Char.isDigit 2 l).bind fun l =>
  (eatLit ':' l).bind fun l =>
  (eatP Char.isDigit 2 l).bind fun l =>
  (eatLit ':' l).bind fun l =>
  eatP Char.isDigit 2 l

/-- `/^\d{4}-\d{2}-\d{2} \d{2}:\d{2}:\d{2}$/`. -/
def matchYmdHms (s : String) : Bool :=
  ((chompDate s.data).bind fun l => (eatLit ' ' l).bind chompTime) == some []

/-- `\w` = `[A-Za-z0-9_]`. -/
def isWordChar (c : Char) : Bool := c.isAlphanum || c = '_'

/-- `/^\d{4}-\d{2}-\d{2} \d{2}:\d{2}:\d{2} \([\w]{3}\)$/`. -/
def matchYmdHmsDay (s : String) : Bool :=
  ((chompDate s.data).bind fun l => (eatLit ' ' l).bind fun l =>
   (chompTime l).bind fun l => (eatLit ' ' l).bind fun l =>
   (eatLit '(' l).bind fun l => (eatP isWordChar 3 l).bind (eatLit ')')) == some []

/-- `/^[A-Za-z]{3}, \d{1,2} [A-Za-z]{3} \d{4} \d{2}:\d{2}:\d{2} GMT$/`. -/
def matchRfc2822 (s : String) : Bool :=
  ((eatP Char.isAlpha 3 s.data).bind fun l => (eatLit ',' l).bind fun l =>
   (eatLit ' ' l).bind fun l =>
   (match (eatP Char.isDigit 2 l).bind (eatLit ' ') with
    | some l' => some l'
    | none => (eatP Char.isDigit 1 l).bind (eatLit ' ')).bind fun l =>
   (eatP Char.isAlpha 3 l).bind fun l => (eatLit ' ' l).bind fun l =>
   (eatP Char.isDigit 4 l).bind fun l => (eatLit ' ' l).bind fun l =>
   (chompTime l).bind fun l => (eatLit ' ' l).bind fun l =>
   (eatLit 'G' l).bind fun l => (eatLit 'M' l).bind (eatLit 'T')) == some []

/-- `/^\d{4}-\d{2}-\d{2}$/`. -/
def matchYmd (s : String) : Bool := chompDate s.data == some []

/-- `String.prototype.replace(' ', 'T')` — first occurrence only. -/
def replaceFirstChar (a b : Char) : List Char → List Char
  | [] => []
  | c :: cs => if c = a then b :: cs else c :: replaceFirstChar a b cs

/-- `dateStr.replace(' ', 'T')`. -/
def replaceSpaceT (s : String) : String := String.mk (replaceFirstChar ' ' 'T' s.data)

/-- `dateStr.replace(/ \([\w]{3}\)$/, '')` — strip a trailing
parenthesized three-letter weekday. -/
def stripDaySuffix (s : String) : String :=
  let l := s.data
  let n := l.length
  if 6 ≤ n then
    match l.drop (n - 6) with
    | [' ', '(', a, b, c, ')'] =>
      if isWordChar a && isWordChar b && isWordChar c then String.mk (l.take (n - 6))
      else s
    | _ => s
  else s

/-- `String.prototype.includes(c)` for a single character. -/
def containsChar (s : String) (c : Char) : Bool := s.data.contains c

/-- The JavaScript environment effects used by the Event Normalizer, passed
explicitly: `nowIso = new Date().toISOString()`, `nowMs = Date.now()`,
`rand = String(Math.random())`; `dateToIso s` models
`new Date(s).toISOString()` (`none` = invalid date, i.e. `RangeError`);
`parseMs s` models `new Date(s).getTime()` (`none` = `NaN`); `msToIso t`
models `new Date(t).toISOString()` (`none` = out-of-range `RangeError`). -/
structure JsEnv where
  nowIso : String
  nowMs : Int
  rand : String
  dateToIso : String → Option String
  parseMs : String → Option Int
  msToIso : ℚ → Option String

/-- `new Date(s).toISOString()`: throws (`.error`) on an invalid date. -/
def jsDateToIso (env : JsEnv) (s : String) : Except Unit String :=
  match env.dateToIso s with
  | some r => .ok r
  | none => .error ()

/-- `formatTimestamp` (api.ts lines 145-169) on a string argument. -/
def formatTimestamp (env : JsEnv) (dateStr : String) : Except Unit String :=
  if dateStr = "" then .ok env.nowIso
  else if containsChar dateStr 'T' || containsChar dateStr 'Z' then .ok dateStr
  else if matchYmdHms dateStr then jsDateToIso env (replaceSpaceT dateStr)
  else if matchYmdHmsDay dateStr then jsDateToIso env (replaceSpaceT (stripDaySuffix dateStr))
  else if matchRfc2822 dateStr then jsDateToIso env dateStr
  else if matchYmd dateStr then jsDateToIso env (dateStr ++ "T00:00:00")
  else jsDateToIso env dateStr

/-- `formatTimestamp` on the untyped value produced by the `||` chains:
falsy values (`undefined`, `""`, `0`, `NaN`) fall back to "now"; a truthy
number raises a `TypeError` (`dateStr.includes` is not a function). -/
def formatTimestampJ (env : JsEnv) : Option JVal → Except Unit String
  | none => .ok env.nowIso
  | some (.str s) => formatTimestamp env s
  | some (.num n) => if n = 0 then .ok env.nowIso else .error ()
  | some .nan => .ok env.nowIso

-- ### Duration Resolver (`parseDurationString` and the priority chain)

/-- Numeric value of a decimal digit character. -/
def digitVal (c : Char) : Nat := c.toNat - 48

/-- The capture groups of `/^(\d{1,2}):(\d{2}):(\d{2})$/` with `parseInt`
applied to each. -/
def parseClock : List Char → Option (Nat × Nat × Nat)
  | [h1, ':', m1, m2, ':', s1, s2] =>
    if h1.isDigit && m1.isDigit && m2.isDigit && s1.isDigit && s2.isDigit then
      some (digitVal h1, 10 * digitVal m1 + digitVal m2, 10 * digitVal s1 + digitVal s2)
    else none
  | [h1, h2, ':', m1, m2, ':', s1, s2] =>
    if h1.isDigit && h2.isDigit && m1.isDigit && m2.isDigit && s1.isDigit && s2.isDigit then
      some (10 * digitVal h1 + digitVal h2, 10 * digitVal m1 + digitVal m2,
        10 * digitVal s1 + digitVal s2)
    else none
  | _ => none

/-- `parseDurationString` (api.ts lines 172-183): parse `H:MM:SS` /
`HH:MM:SS` to `hours*3600 + minutes*60 + seconds`; any non-matching string
(including the empty string, rejected up front) yields 0. -/
def parseDurationString (durationStr : String) : Nat :=
  match parseClock durationStr.data with
  | some (h, m, s) => h * 3600 + m * 60 + s
  | none => 0

/-- Decimal value of a digit string. -/
def digitsToNat (l : List Char) : Nat := l.foldl (fun a c => 10 * a + digitVal c) 0

/-- `Number(string)` coercion, restricted to the integer-valued strings this
model covers: trimmed empty string is 0, optionally signed digit strings are
their decimal value, anything else is `NaN` (`none`). -/
def strToNumber (s : String) : Option Int :=
  match trimChars s.data with
  | [] => some 0
  | '-' :: ds =>
    if ds ≠ [] && ds.all Char.isDigit then some (-(digitsToNat ds : Int)) else none
  | '+' :: ds =>
    if ds ≠ [] && ds.all Char.isDigit then some ((digitsToNat ds : Int)) else none
  | ds => if ds.all Char.isDigit then some ((digitsToNat ds : Int)) else none

/-- JavaScript numeric coercion of a value (`none` = `NaN`). -/
def jvalToNumber : JVal → Option ℚ
  | .num n => some n
  | .nan => none
  | .str s => (strToNumber s).map fun n => (n : ℚ)

/-- The JavaScript comparison `v > 0` (coercing; `NaN > 0` is false). -/
def jGtZero (v : JVal) : Bool :=
  match jvalToNumber v with
  | some n => decide (0 < n)
  | none => false

/-- The numeric fallback chain
`event.duration_seconds || event.frame_time_seconds || event.duration ||
event.duration_sec || 0` (api.ts line 198). -/
def numericDurationChain (r : RawRecord) : JVal :=
  orElseField r ["duration_seconds", "frame_time_seconds", "duration", "duration_sec"]
    (.num 0)

/-- The initial `durationSeconds` assignment (api.ts lines 190-199): if
`event.duration` is a truthy string, parse it as a clock string; otherwise
use the numeric fallback chain. -/
def initDuration (r : RawRecord) : JVal :=
  match getField r "duration" with
  | some (.str s) =>
    if s ≠ "" then .num (parseDurationString s : ℚ) else numericDurationChain r
  | _ => numericDurationChain r

-- ### Event Normalizer (`transformBehaviorEvent`, api.ts lines 127-244)

/-- The normalized event produced by `transformBehaviorEvent`. Fields that
the code computes with `||` chains over untyped records keep the untyped
value type `JVal`; `confidence_score` is a rational (`none` = `NaN`). -/
structure TEvent where
  id : JVal
  behavior_type : String
  raw_behavior_type : Option String
  start_timestamp : String
  end_timestamp : String
  duration_seconds : JVal
  camera_source : JVal
  raw_video_url : JVal
  video_url : JVal
  thumbnail_url : JVal
  confidence_score : Option ℚ
  environmental_context : Option JVal
  deriving DecidableEq, Repr

/-- `getFrontendBehaviorType` applied to the untyped resolved behavior value:
falsy values (`0`, `NaN`) take the `!backendType` early return; a truthy
number misses the lookup table and then raises a `TypeError` on
`backendType.toUpperCase()`. -/
def getFrontendBehaviorTypeJ : JVal → Except Unit String
  | .str s => .ok (getFrontendBehaviorType s)
  | .num n => if n = 0 then .ok "Unknown" else .error ()
  | .nan => .ok "Unknown"

/-- The confidence-score resolution (api.ts lines 237-241):
`typeof event.confidence_score === 'number' ? cs/100 : typeof
event.confidence === 'number' ? c/100 : (event.Confidence || 0)/100 || 0`.
`none` models `NaN`. -/
def resolveConfidence (r : RawRecord) : Option ℚ :=
  match getField r "confidence_score" with
  | some (.num n) => some (n / 100)
  | some .nan => none
  | _ =>
    match getField r "confidence" with
    | some (.num n) => some (n / 100)
    | some .nan => none
    | _ =>
      let v := orElseField r ["Confidence"] (.num 0)
      let q : Option ℚ :=
        match v with
        | .num n => some (n / 100)
        | .nan => none
        | .str s => (strToNumber s).map fun n => (n : ℚ) / 100
      some (q.getD 0)

/-- The start-time candidate keys (api.ts line 139). -/
def startTimeKeys : List String :=
  ["start_datetime", "timestamp_from_camera", "detection_timestamp", "StartTime",
   "start_timestamp", "start_time", "timestamp", "start_date"]

/-- The end-time candidate keys (api.ts line 140). -/
def endTimeKeys : List String :=
  ["end_datetime", "EndTime", "end_timestamp", "end_time", "end_date"]

/-- The end-timestamp / duration finalization (api.ts lines 201-221): with an
end timestamp present, a strictly-zero duration is recomputed as the clamped
floor delta `Math.max(0, Math.floor((end - start)/1000))` (NaN when either
timestamp fails to parse); with no end timestamp, a positive duration
synthesizes `end = start + duration` (raising when the start does not parse
or the synthesized instant is out of range), and otherwise the event is
instantaneous (`end = start`, duration 0). -/
def resolveEndDuration (env : JsEnv) (startTimestamp : String)
    (endTimestamp : Option String) (dur0 : JVal) : Except Unit (String × JVal) :=
  match endTimestamp with
  | some endT =>
    if dur0 = .num 0 then
      match env.parseMs endT, env.parseMs startTimestamp with
      | some e, some s => .ok (endT, JVal.num ((max 0 ((e - s).fdiv 1000) : Int) : ℚ))
      | _, _ => .ok (endT, JVal.nan)
    else .ok (endT, dur0)
  | none =>
    if jGtZero dur0 && startTimestamp ≠ "" then
      match env.parseMs startTimestamp, jvalToNumber dur0 with
      | some t, some d =>
        match env.msToIso ((t : ℚ) + d * 1000) with
        | some iso => .ok (iso, dur0)
        | none => .error ()
      | _, _ => .error ()
    else .ok (startTimestamp, JVal.num 0)

/-- `transformBehaviorEvent` (api.ts lines 127-244). A `null`/`undefined`
record raises (`throw new Error('Invalid event data')`); other raises
(`.error`) model `TypeError`/`RangeError` on the paths described at the
helper definitions. -/
def transformBehaviorEvent (env : JsEnv) : Option RawRecord → Except Unit TEvent
  | none => .error ()
  | some r => do
    let behaviorType := orElseField r behaviorKeys (.str "RECUMBENT")
    let transformedType ← getFrontendBehaviorTypeJ behaviorType
    let startTime := jsOrChain r startTimeKeys
    let endTime := jsOrChain r endTimeKeys
    let startTimestamp ← formatTimestampJ env startTime
    let endTimestamp ←
      if optTruthy endTime then (formatTimestampJ env endTime).map some
      else .ok (none : Option String)
    let dur0 := initDuration r
    let finalPair ← resolveEndDuration env startTimestamp endTimestamp dur0
    let rawVid := orElseField r ["video_url", "VideoUrl", "video", "video_path"] (.str "")
    let vidUrl ←
      (match rawVid with
      | .str s => .ok (JVal.str (if isS3Url s then convertS3UrlToHttp s else s))
      | _ => .error () : Except Unit JVal)
    .ok {
      id := orElseField r ["id", "event_id", "behavior_id"]
        (.str ("event-" ++ toString env.nowMs ++ "-" ++ env.rand)),
      behavior_type := transformedType,
      raw_behavior_type := (match behaviorType with | .str s => some s | _ => none),
      start_timestamp := startTimestamp,
      end_timestamp := finalPair.1,
      duration_seconds := finalPair.2,
      camera_source := orElseField r ["camera_source", "CameraSource", "camera", "camera_name"]
        (.str "Unknown"),
      raw_video_url := rawVid,
      video_url := vidUrl,
      thumbnail_url := orElseField r
        ["thumbnail_url", "ThumbnailUrl", "thumbnail", "thumbnail_path", "image_url"] (.str ""),
      confidence_score := resolveConfidence r,
      environmental_context := jsOrChain r ["environmental_context", "context", "environment"] }

-- ### Claim C1: timestamp normalization fallback

/-- A concrete environment for closed evaluations: the clock reads
`2025-01-01T00:00:00.000Z` and the engine's generic date parser rejects its
argument (as JavaScript does on the unparseable strings used below, where it
is consulted at all). -/
def stubEnv : JsEnv :=
  { nowIso := "2025-01-01T00:00:00.000Z", nowMs := 0, rand := "r",
    dateToIso := fun _ => none, parseMs := fun _ => none, msToIso := fun _ => none }

/-- **C1, counterexample.** The claim says every empty-or-unparseable
timestamp string yields the current instant and never raises. In fact
`"Zebra"` (unparseable by every recognized format, but containing `'Z'`) is
returned verbatim instead of the current instant, and `"abc"` (no `'T'`/`'Z'`,
matching no recognized format) reaches `new Date("abc").toISOString()`, which
raises a `RangeError` on the resulting invalid date. -/
theorem timestampFallback_claim_false :
    formatTimestamp stubEnv "Zebra" = .ok "Zebra" ∧
    ("Zebra" : String) ≠ stubEnv.nowIso ∧
    formatTimestamp stubEnv "abc" = .error () :=
  ⟨rfl, by decide, rfl⟩

/-- **C1, amended.** Empty input falls back to the current instant at call
time. A non-empty string containing `'T'` or `'Z'` is returned verbatim,
whether or not it is a valid timestamp. A non-empty string without `'T'`/`'Z'`
that matches none of the recognized formats is handed to the environment's
generic date parser (`new Date(dateStr).toISOString()`), which raises on an
unparseable string rather than falling back to the current instant. -/
theorem timestampFallback_amended (env : JsEnv) (s : String) :
    (s = "" → formatTimestamp env s = .ok env.nowIso) ∧
    (s ≠ "" → (containsChar s 'T' || containsChar s 'Z') = true →
      formatTimestamp env s = .ok s) ∧
    (s ≠ "" → (containsChar s 'T' || containsChar s 'Z') = false →
      matchYmdHms s = false → matchYmdHmsDay s = false →
      matchRfc2822 s = false → matchYmd s = false →
      formatTimestamp env s = jsDateToIso env s) := by
  refine ⟨?_, ?_, ?_⟩
  · intro h; simp [formatTimestamp, h]
  · intro h htz; simp [formatTimestamp, h, htz]
  · intro h htz h1 h2 h3 h4
    simp [formatTimestamp, h, htz, h1, h2, h3, h4]

/-- **C1, witness.** `timestampFallback_amended` at the concrete inputs `""`
(fallback to now), `"XYZ"` (returned verbatim) and `"abc"` (generic parse,
which raises in `stubEnv`). -/
theorem timestampFallback_amended_witness :
    formatTimestamp stubEnv "" = .ok stubEnv.nowIso ∧
    formatTimestamp stubEnv "XYZ" = .ok "XYZ" ∧
    formatTimestamp stubEnv "abc" = jsDateToIso stubEnv "abc" :=
  ⟨(timestampFallback_amended stubEnv "").1 rfl,
   (timestampFallback_amended stubEnv "XYZ").2.1 (by decide) (by decide),
   (timestampFallback_amended stubEnv "abc").2.2 (by decide) (by decide) (by decide)
     (by decide) (by decide) (by decide)⟩

-- ### Claim C3: duration string parsing and fall-through

/-- The decimal digit character for `n < 10`. -/
def digitChar (n : Nat) : Char := Char.ofNat (48 + n)

/-- Render `h:mm:ss` / `hh:mm:ss` the way the backend emits clock-format
durations: one or two digits of hours, two digits of minutes and seconds. -/
def renderClock (h m s : Nat) : String :=
  String.mk ((if h < 10 then [digitChar h] else [digitChar (h / 10), digitChar (h % 10)]) ++
    ':' :: digitChar (m / 10) :: digitChar (m % 10) ::
    ':' :: digitChar (s / 10) :: [digitChar (s % 10)])

theorem digitChar_isDigit (n : Nat) (h : n < 10) : (digitChar n).isDigit = true := by
  interval_cases n <;> decide

theorem digitVal_digitChar (n : Nat) (h : n < 10) : digitVal (digitChar n) = n := by
  interval_cases n <;> decide

/-- **C3, counterexample.** The claim says a non-matching duration string
"falls through to the numeric duration fields and then to the start/end
instant delta". On `{ duration: "abc", duration_seconds: 60,
start_datetime: "2025-10-20T02:52:05Z" }` the truthy string `"abc"` takes the
string-parse branch, which yields 0, and the numeric fields are *not*
consulted (they sit in the `else` of `typeof event.duration === 'string'`):
the produced event has `duration_seconds = 0`, not the claimed 60. -/
theorem durationResolver_claim_false :
    (transformBehaviorEvent stubEnv
        (some [("duration", .str "abc"), ("duration_seconds", .num 60),
               ("start_datetime", .str "2025-10-20T02:52:05Z")])).toOption.map
        (·.duration_seconds) = some (.num 0) ∧
    getField [("duration", .str "abc"), ("duration_seconds", .num 60),
               ("start_datetime", .str "2025-10-20T02:52:05Z")] "duration_seconds"
      = some (.num 60) ∧
    JVal.num 0 ≠ JVal.num 60 :=
  ⟨by decide, by decide, by decide⟩

/-- **C3, amended.** A clock-format duration string `H:MM:SS` / `HH:MM:SS`
parses to `hours*3600 + minutes*60 + seconds` (`"01:02:03"` → 3723,
`"00:00:45"` → 45); a truthy duration string matching no clock format yields
0 from the string-parse step, and resolution then falls through directly to
the start/end instant delta — the numeric duration fields are consulted only
when the `duration` field is absent or not a truthy string. -/
theorem durationResolver_amended :
    (∀ h m s : Nat, h < 100 → m < 100 → s < 100 →
        parseDurationString (renderClock h m s) = h * 3600 + m * 60 + s) ∧
    parseDurationString "01:02:03" = 3723 ∧
    parseDurationString "00:00:45" = 45 ∧
    (∀ (r : RawRecord) (d : String), getField r "duration" = some (.str d) → d ≠ "" →
        parseClock d.data = none → initDuration r = .num 0) := by
  refine ⟨?_, by decide, by decide, ?_⟩
  · intro h m s hh hm hs
    have hm1 : m / 10 < 10 := by omega
    have hm2 : m % 10 < 10 := by omega
    have hs1 : s / 10 < 10 := by omega
    have hs2 : s % 10 < 10 := by omega
    by_cases h10 : h < 10
    · simp only [renderClock, if_pos h10, parseDurationString, List.cons_append,
        List.nil_append, parseClock, digitChar_isDigit _ h10, digitChar_isDigit _ hm1,
        digitChar_isDigit _ hm2, digitChar_isDigit _ hs1, digitChar_isDigit _ hs2,
        Bool.and_self, if_pos, digitVal_digitChar _ h10, digitVal_digitChar _ hm1,
        digitVal_digitChar _ hm2, digitVal_digitChar _ hs1, digitVal_digitChar _ hs2]
      omega
    · have hh1 : h / 10 < 10 := by omega
      have hh2 : h % 10 < 10 := by omega
      simp only [renderClock, if_neg h10, parseDurationString, List.cons_append,
        List.nil_append, parseClock, digitChar_isDigit _ hh1, digitChar_isDigit _ hh2,
        digitChar_isDigit _ hm1, digitChar_isDigit _ hm2, digitChar_isDigit _ hs1,
        digitChar_isDigit _ hs2, Bool.and_self, if_pos, digitVal_digitChar _ hh1,
        digitVal_digitChar _ hh2, digitVal_digitChar _ hm1, digitVal_digitChar _ hm2,
        digitVal_digitChar _ hs1, digitVal_digitChar _ hs2]
      omega
  · intro r d hdur hne hclock
    simp [initDuration, hdur, hne, parseDurationString, hclock]

/-- **C3, witness.** `durationResolver_amended` applied at the clock string
`1:02:03` and at a record whose truthy `duration` string `"xyz"` matches no
clock format while a numeric `duration_seconds` is present. -/
theorem durationResolver_amended_witness :
    parseDurationString (renderClock 1 2 3) = 1 * 3600 + 2 * 60 + 3 ∧
    initDuration [("duration", JVal.str "xyz"), ("duration_seconds", JVal.num 60)]
      = .num 0 :=
  ⟨durationResolver_amended.1 1 2 3 (by decide) (by decide) (by decide),
   durationResolver_amended.2.2.2 _ "xyz" (by decide) (by decide) (by decide)⟩

-- ### Claim C4: non-negativity of the produced duration

/-- Values acceptable in the numeric fallback chain without producing a
negative or string duration: absent, `NaN` (skipped as falsy), the empty
string (skipped as falsy), or a non-negative number. -/
def chainFieldOk : Option JVal → Prop
  | none => True
  | some (.num n) => 0 ≤ n
  | some .nan => True
  | some (.str s) => s = ""

/-- Values acceptable for the `duration` field: additionally any string
(truthy strings take the clock-parse branch, which is non-negative). -/
def durationFieldOk : Option JVal → Prop
  | none => True
  | some (.num n) => 0 ≤ n
  | some .nan => True
  | some (.str _) => True

theorem chain_nonneg (r : RawRecord) :
    ∀ keys : List String, (∀ k ∈ keys, chainFieldOk (getField r k)) →
      ∃ n : ℚ, orElseField r keys (.num 0) = .num n ∧ 0 ≤ n := by
  intro keys h
  induction keys with
  | nil => exact ⟨0, rfl, le_refl 0⟩
  | cons k ks ih =>
    obtain ⟨n, hn, hge⟩ := ih fun k' hk' => h k' (List.mem_cons_of_mem _ hk')
    have hk := h k (List.mem_cons_self _ _)
    simp only [orElseField]
    cases hv : getField r k with
    | none => exact ⟨n, hn, hge⟩
    | some v =>
      rw [hv] at hk
      cases v with
      | str s =>
        simp only [chainFieldOk] at hk
        subst hk
        simp only [JVal.truthy, ne_eq, not_true_eq_false, decide_False]
        exact ⟨n, hn, hge⟩
      | num m =>
        simp only [chainFieldOk] at hk
        by_cases hm : m = 0
        · subst hm
          simp only [JVal.truthy, ne_eq, not_true_eq_false, decide_False]
          exact ⟨n, hn, hge⟩
        · simp only [JVal.truthy, ne_eq, hm, not_false_eq_true, decide_True, if_true]
          exact ⟨m, rfl, hk⟩
      | nan =>
        simp only [JVal.truthy]
        exact ⟨n, hn, hge⟩

theorem initDuration_nonneg (r : RawRecord)
    (h1 : chainFieldOk (getField r "duration_seconds"))
    (h2 : chainFieldOk (getField r "frame_time_seconds"))
    (h3 : chainFieldOk (getField r "duration_sec"))
    (h4 : durationFieldOk (getField r "duration")) :
    ∃ n : ℚ, initDuration r = .num n ∧ 0 ≤ n := by
  have hchain : chainFieldOk (getField r "duration") →
      ∃ n : ℚ, numericDurationChain r = .num n ∧ 0 ≤ n := by
    intro hd
    refine chain_nonneg r _ ?_
    intro k hk
    simp only [List.mem_cons, List.not_mem_nil, or_false] at hk
    rcases hk with rfl | rfl | rfl | rfl
    · exact h1
    · exact h2
    · exact hd
    · exact h3
  cases hdur : getField r "duration" with
  | none =>
    simp only [initDuration, hdur]
    exact hchain (by simp [hdur, chainFieldOk])
  | some v =>
    rw [hdur] at h4
    cases v with
    | str s =>
      by_cases hs : s = ""
      · subst hs
        simp only [initDuration, hdur, ne_eq, not_true_eq_false, if_false]
        exact hchain (by simp [hdur, chainFieldOk])
      · simp only [initDuration, hdur, ne_eq, hs, not_false_eq_true, if_true]
        exact ⟨(parseDurationString s : ℚ), rfl, Nat.cast_nonneg _⟩
    | num m =>
      simp only [initDuration, hdur]
      refine hchain ?_
      simp only [hdur, chainFieldOk]
      exact h4
    | nan =>
      simp only [initDuration, hdur]
      exact hchain (by simp [hdur, chainFieldOk])

theorem resolveEndDuration_nonneg (env : JsEnv) (st : String) (endT : Option String)
    (n0 : ℚ) (hge0 : 0 ≤ n0) :
    ∀ p : String × JVal, resolveEndDuration env st endT (.num n0) = .ok p →
      p.2 = .nan ∨ ∃ n : ℚ, p.2 = .num n ∧ 0 ≤ n := by
  intro p hp
  simp only [resolveEndDuration] at hp
  repeat' split at hp
  all_goals try exact Except.noConfusion hp
  all_goals (injection hp with h; subst h)
  all_goals
    first
    | exact Or.inl rfl
    | exact Or.inr ⟨n0, rfl, hge0⟩
    | exact Or.inr ⟨0, rfl, le_refl 0⟩
    | exact Or.inr ⟨_, rfl, Int.cast_nonneg.mpr (le_max_left 0 _)⟩

/-- The JavaScript double `2.5` (every finite double is an exact rational). -/
def jsTwoPointFive : ℚ := ⟨5, 2, by decide, by decide⟩

/-- **C4, counterexample.** The claim says the produced `durationSeconds` is
a non-negative integer for *any* combination of duration/start/end fields of
any value. Both halves fail: a record with `duration_seconds: -5` and an end
timestamp passes the negative value straight through (the `Math.max(0, ...)`
clamp only runs when the duration is exactly 0), and a record with the
fractional `duration_seconds: 2.5` and an end timestamp passes `2.5` through
unchanged — neither an integer nor clamped. -/
theorem durationNonneg_claim_false :
    (transformBehaviorEvent stubEnv
        (some [("duration_seconds", .num (-5)),
               ("start_datetime", .str "2025-10-20T02:52:05Z"),
               ("end_datetime", .str "2025-10-20T02:53:05Z")])).toOption.map
        (·.duration_seconds) = some (.num (-5)) ∧
    ¬ (0 : ℚ) ≤ -5 ∧
    (transformBehaviorEvent stubEnv
        (some [("duration_seconds", .num jsTwoPointFive),
               ("start_datetime", .str "2025-10-20T02:52:05Z"),
               ("end_datetime", .str "2025-10-20T02:53:05Z")])).toOption.map
        (·.duration_seconds) = some (.num jsTwoPointFive) ∧
    ∀ k : ℤ, jsTwoPointFive ≠ (k : ℚ) :=
  ⟨by decide, by decide, by decide, fun k h => by
    have hden := congrArg Rat.den h
    rw [Rat.den_intCast] at hden
    exact absurd hden (by decide)⟩

/-- **C4, amended.** For every raw record whose numeric duration fields
(`duration_seconds`, `frame_time_seconds`, `duration_sec`), when present, are
non-negative numbers (or `NaN`/empty strings, which the `||` chain skips), and
whose `duration` field, when present, is a string, `NaN`, or a non-negative
number, any Event the normalizer produces has a `durationSeconds` that is
either a non-negative number (zero permitted for instantaneous events) or
`NaN` (the delta of timestamps that fail to parse). Integrality is *not*
claimed: a fractional numeric field passes through unchanged, as
`durationNonneg_claim_false` shows. -/
theorem durationNonneg_amended (env : JsEnv) (r : RawRecord)
    (h1 : chainFieldOk (getField r "duration_seconds"))
    (h2 : chainFieldOk (getField r "frame_time_seconds"))
    (h3 : chainFieldOk (getField r "duration_sec"))
    (h4 : durationFieldOk (getField r "duration")) :
    ∀ e : TEvent, transformBehaviorEvent env (some r) = .ok e →
      e.duration_seconds = .nan ∨ ∃ n : ℚ, e.duration_seconds = .num n ∧ 0 ≤ n := by
  intro e htrans
  obtain ⟨n0, hn0, hge0⟩ := initDuration_nonneg r h1 h2 h3 h4
  simp only [transformBehaviorEvent, bind, Except.bind, Except.map, hn0] at htrans
  repeat' split at htrans
  all_goals try exact Except.noConfusion htrans
  all_goals (injection htrans with h; subst h)
  all_goals exact resolveEndDuration_nonneg _ _ _ n0 hge0 _ (by assumption)

/-- **C4, witness.** `durationNonneg_amended` at a concrete record with only a
start timestamp: the event is instantaneous and its duration is the
non-negative number 0. -/
theorem durationNonneg_amended_witness :
    ∃ e : TEvent,
      transformBehaviorEvent stubEnv
        (some [("start_datetime", JVal.str "2025-10-20T02:52:05Z")]) = .ok e ∧
      (e.duration_seconds = .nan ∨ ∃ n : ℚ, e.duration_seconds = .num n ∧ 0 ≤ n) := by
  have hok : (transformBehaviorEvent stubEnv
      (some [("start_datetime", JVal.str "2025-10-20T02:52:05Z")])).toOption.isSome
        = true := by decide
  cases h : transformBehaviorEvent stubEnv
      (some [("start_datetime", JVal.str "2025-10-20T02:52:05Z")]) with
  | error u => rw [h] at hok; simp [Except.toOption] at hok
  | ok e =>
    exact ⟨e, rfl,
      durationNonneg_amended stubEnv [("start_datetime", JVal.str "2025-10-20T02:52:05Z")]
        trivial trivial trivial trivial e h⟩

-- ### Claim C9: hard-coded default behavior code

/-- **C9.** For every raw record containing none of the recognized
behavior-code key variants, the `||` chain substitutes the hard-coded default
`'RECUMBENT'`, and any Event the normalizer produces for such a record
carries the behavior label `"Recumbent"`. -/
theorem defaultBehavior_confirmed (env : JsEnv) (r : RawRecord)
    (h : ∀ k ∈ behaviorKeys, getField r k = none) :
    orElseField r behaviorKeys (.str "RECUMBENT") = .str "RECUMBENT" ∧
    ∀ e : TEvent, transformBehaviorEvent env (some r) = .ok e →
      e.behavior_type = "Recumbent" := by
  have hb := orElseField_of_all_absent r (.str "RECUMBENT") behaviorKeys h
  refine ⟨hb, ?_⟩
  intro e htrans
  simp only [transformBehaviorEvent, bind, Except.bind, hb,
    show getFrontendBehaviorTypeJ (JVal.str "RECUMBENT") = Except.ok "Recumbent"
      from rfl] at htrans
  repeat' split at htrans
  all_goals try exact Except.noConfusion htrans
  all_goals (injection htrans with h'; subst h'; rfl)

/-- **C9, witness.** `defaultBehavior_confirmed` at the empty record: the
produced event's label is `"Recumbent"`. -/
theorem defaultBehavior_confirmed_witness :
    ∃ e : TEvent, transformBehaviorEvent stubEnv (some []) = .ok e ∧
      e.behavior_type = "Recumbent" := by
  have hok : (transformBehaviorEvent stubEnv (some [])).toOption.isSome = true := by
    decide
  cases h : transformBehaviorEvent stubEnv (some []) with
  | error u => rw [h] at hok; simp [Except.toOption] at hok
  | ok e =>
    exact ⟨e, rfl, (defaultBehavior_confirmed stubEnv [] (by decide)).2 e h⟩

-- ### Claim C8: idempotence of the URL Rewriter

theorem convChars_idem (l : List Char) : convChars (convChars l) = convChars l := by
  have hhttp : "http://".data = ['h', 't', 't', 'p', ':', '/', '/'] := by decide
  have hhttps : "https://".data = ['h', 't', 't', 'p', 's', ':', '/', '/'] := by decide
  by_cases h0 : l.isEmpty
  · have hl : l = [] := by cases l with | nil => rfl | cons c cs => simp [List.isEmpty] at h0
    subst hl; rfl
  · by_cases h1 : ("http://".data.isPrefixOf l || "https://".data.isPrefixOf l) = true
    · have e : convChars l = l := by simp [convChars, h0, h1]
      rw [e]; exact e
    · by_cases h2 : ("s3://".data.isPrefixOf l) = true
      · cases hsp : splitAtFirst '/' (l.drop 5) with
        | none =>
          have e : convChars l = "https://".data ++ (l.drop 5 ++ ".s3.amazonaws.com".data) := by
            simp [convChars, h0, h1, h2, hsp]
          rw [e, hhttps]
          simp [convChars, List.isPrefixOf, hhttp, hhttps]
        | some bp =>
          obtain ⟨b, p⟩ := bp
          have e : convChars l = "https://".data ++ (b ++ (".s3.amazonaws.com/".data ++ p)) := by
            simp [convChars, h0, h1, h2, hsp]
          rw [e, hhttps]
          simp [convChars, List.isPrefixOf, hhttp, hhttps]
      · have e : convChars l = l := by simp [convChars, h0, h1, h2]
        rw [e]; exact e

/-- **C8.** The URL Rewriter is idempotent: for every string `x`,
`convertS3UrlToHttp (convertS3UrlToHttp x) = convertS3UrlToHttp x` — an
empty or already-`http(s)` input is returned unchanged (a fixed point), an
`s3://` input is rewritten to an `https://`-prefixed URL (which the second
application returns unchanged), and every other input passes through. -/
theorem urlRewriter_idem (x : String) :
    convertS3UrlToHttp (convertS3UrlToHttp x) = convertS3UrlToHttp x := by
  show String.mk (convChars (String.mk (convChars x.data)).data) = String.mk (convChars x.data)
  rw [show (String.mk (convChars x.data)).data = convChars x.data from rfl, convChars_idem]

-- ### Response Unwrapper (`fetchBehaviorEvents`, api.ts lines 285-332)

/-- A field value of the top-level response object: an array of raw records,
or a primitive. -/
inductive RVal where
  | arr : List RawRecord → RVal
  | prim : JVal → RVal

/-- The top-level JSON value returned by the timeline endpoint. -/
inductive ApiResponse where
  | arr : List RawRecord → ApiResponse
  | obj : List (String × RVal) → ApiResponse
  | prim : JVal → ApiResponse
  | nullv : ApiResponse

/-- Property access on the response object. -/
def getRField : List (String × RVal) → String → Option RVal
  | [], _ => none
  | (k', v) :: rest, k => if k' = k then some v else getRField rest k

/-- Truthiness of a possibly-absent response field (arrays and objects are
always truthy in JavaScript; primitives by value). -/
def rvTruthy : Option RVal → Bool
  | none => false
  | some (.arr _) => true
  | some (.prim v) => v.truthy

/-- The wrapper keys checked by the response unwrapping, in source order. -/
def wrapperKeys : List String := ["timeline", "behaviours", "behaviors", "data", "events"]

/-- The record-list extraction of `fetchBehaviorEvents` (api.ts lines
285-332): a direct array is returned as-is; an object with a truthy `error`
is an empty (valid, no-data) result; otherwise an `else if` chain consults
the *first defined* wrapper key and yields its value if it is an array, else
the empty list — later keys are not consulted; any other shape yields the
empty list. Never throws. -/
def unwrapTimeline : ApiResponse → List RawRecord
  | .arr es => es
  | .obj fs =>
    if rvTruthy (getRField fs "error") then []
    else
      match getRField fs "timeline" with
      | some (.arr es) => es
      | some (.prim _) => []
      | none =>
        match getRField fs "behaviours" with
        | some (.arr es) => es
        | some (.prim _) => []
        | none =>
          match getRField fs "behaviors" with
          | some (.arr es) => es
          | some (.prim _) => []
          | none =>
            match getRField fs "data" with
            | some (.arr es) => es
            | some (.prim _) => []
            | none =>
              match getRField fs "events" with
              | some (.arr es) => es
              | some (.prim _) => []
              | none => []
  | .prim _ => []
  | .nullv => []

/-- `Modelled from the spec:` the Response Unwrapper exactly as claim C5
words it: empty on an object *carrying* an `error` key, else the value of
the first wrapper key among the five *whose value is itself an array*. -/
def unwrapSpecClaim : ApiResponse → List RawRecord
  | .arr es => es
  | .obj fs =>
    if (getRField fs "error").isSome then []
    else
      match wrapperKeys.findSome? (fun k =>
        match getRField fs k with
        | some (.arr es) => some es
        | _ => none) with
      | some es => es
      | none => []
  | .prim _ => []
  | .nullv => []

/-- `Modelled from the spec:` the amended Response Unwrapper: empty on an
object whose `error` value is truthy, else the value of the first *defined*
wrapper key if that value is an array, and the empty list otherwise. -/
def unwrapSpecAmended : ApiResponse → List RawRecord
  | .arr es => es
  | .obj fs =>
    if rvTruthy (getRField fs "error") then []
    else
      match wrapperKeys.findSome? (fun k => getRField fs k) with
      | some (.arr es) => es
      | some (.prim _) => []
      | none => []
  | .prim _ => []
  | .nullv => []

/-- **C5, counterexample.** On `{ timeline: 5, behaviours: [{}] }` the claim
mandates returning the `behaviours` array (the first key whose value is an
array); the code's `else if (... !== undefined)` chain stops at the defined
non-array `timeline` and returns the empty list. (The claim's `error` clause
is also truthiness-based in the code, not presence-based.) -/
theorem responseUnwrap_claim_false :
    unwrapTimeline (.obj [("timeline", .prim (.num 5)), ("behaviours", .arr [[]])]) = [] ∧
    unwrapSpecClaim (.obj [("timeline", .prim (.num 5)), ("behaviours", .arr [[]])]) = [[]] ∧
    ([] : List RawRecord) ≠ [[]] :=
  ⟨rfl, rfl, by simp⟩

/-- **C5, amended.** For every top-level response value, the unwrapper
returns: the value itself when it is directly an array; the empty record
list when it is an object whose `error` value is truthy; otherwise, for an
object, the value of the first *defined* key among timeline, behaviours,
behaviors, data, events if that value is an array, and the empty list
otherwise (later keys are not consulted); and the empty list for any other
shape. It never throws. -/
theorem responseUnwrap_amended (resp : ApiResponse) :
    unwrapTimeline resp = unwrapSpecAmended resp := by
  cases resp with
  | arr es => rfl
  | prim v => rfl
  | nullv => rfl
  | obj fs =>
    by_cases herr : rvTruthy (getRField fs "error") = true
    · simp [unwrapTimeline, unwrapSpecAmended, herr]
    · simp only [unwrapTimeline, unwrapSpecAmended, herr, Bool.false_eq_true, if_false,
        wrapperKeys, List.findSome?_cons]
      cases h1 : getRField fs "timeline" with
      | some rv => cases rv <;> simp [h1]
      | none =>
        simp only [h1, List.findSome?_cons]
        cases h2 : getRField fs "behaviours" with
        | some rv => cases rv <;> simp [h2]
        | none =>
          simp only [h2, List.findSome?_cons]
          cases h3 : getRField fs "behaviors" with
          | some rv => cases rv <;> simp [h3]
          | none =>
            simp only [h3, List.findSome?_cons]
            cases h4 : getRField fs "data" with
            | some rv => cases rv <;> simp [h4]
            | none =>
              simp only [h4, List.findSome?_cons]
              cases h5 : getRField fs "events" with
              | some rv => cases rv <;> simp [h5]
              | none => simp [h5]

-- ### Aggregator (`generateSummaryFromEvents`, `generateHeatmapFromEvents`)

/-- The slice of a normalized `BehaviorEvent` the aggregator reads (its
TypeScript type declares `duration_seconds: number`). -/
structure BEvent where
  behavior_type : String
  duration_seconds : Int
  start_timestamp : String
  deriving DecidableEq, Repr

/-- `BehaviorSummary` (types.ts shape used by api.ts lines 425-433). -/
structure BehaviorSummary where
  behavior_type : String
  count : Nat
  total_duration_seconds : Int
  average_duration_seconds : ℚ
  min_duration_seconds : Int
  max_duration_seconds : Int
  percentage_of_total : ℚ
  deriving DecidableEq, Repr

/-- `HourlyHeatmapData`. -/
structure HourlyHeatmapData where
  behavior_type : String
  hour : Nat
  count : Nat
  duration_seconds : Int
  deriving DecidableEq, Repr

/-- `DashboardSummary`. -/
structure DashboardSummary where
  total_behaviors : Nat
  most_frequent_behavior : String
  total_monitored_seconds : Int
  behaviors : List BehaviorSummary
  hourly_heatmap : List HourlyHeatmapData
  deriving Repr

/-- Worker for `dedupF`: keep the first occurrence of each string not yet
seen. -/
def dedupAux : List String → List String → List String
  | [], _ => []
  | x :: xs, seen => if x ∈ seen then dedupAux xs seen else x :: dedupAux xs (x :: seen)

/-- `Array.from(new Set(xs))`: first-occurrence-ordered deduplication. -/
def dedupF (l : List String) : List String := dedupAux l []

/-- The all-zero summary entry seeded for a label (api.ts lines 425-433). -/
def emptySummary (b : String) : BehaviorSummary :=
  { behavior_type := b, count := 0, total_duration_seconds := 0,
    average_duration_seconds := 0, min_duration_seconds := 0,
    max_duration_seconds := 0, percentage_of_total := 0 }

/-- The per-event accumulation (api.ts lines 460-469): count and total always
grow; min/max only from strictly positive durations, with a zero min treated
as "unset". -/
def accumEvent (s : BehaviorSummary) (d : Int) : BehaviorSummary :=
  { s with
    count := s.count + 1,
    total_duration_seconds := s.total_duration_seconds + d,
    min_duration_seconds :=
      if 0 < d then (if s.min_duration_seconds = 0 then d else min s.min_duration_seconds d)
      else s.min_duration_seconds,
    max_duration_seconds :=
      if 0 < d then max s.max_duration_seconds d else s.max_duration_seconds }

/-- `behaviorMap` as an insertion-ordered association list; `bmUpdate` is the
`Map.has`/`set`/mutate step of the main `forEach` (insert an accumulated
zero entry at the end when the label is new, update in place otherwise). -/
def bmUpdate : List (String × BehaviorSummary) → String → Int →
    List (String × BehaviorSummary)
  | [], k, d => [(k, accumEvent (emptySummary k) d)]
  | (k', s) :: rest, k, d =>
    if k' = k then (k', accumEvent s d) :: rest else (k', s) :: bmUpdate rest k d

/-- Association-list lookup (`Map.get`). -/
def bmLookup : List (String × BehaviorSummary) → String → Option BehaviorSummary
  | [], _ => none
  | (k', s) :: rest, k => if k' = k then some s else bmLookup rest k

/-- The pre-seeding pass (api.ts lines 422-435): every distinct behavior
label gets an all-zero entry, in first-seen order. -/
def seedMap (labels : List String) : List (String × BehaviorSummary) :=
  labels.map fun b => (b, emptySummary b)

/-- The seeded map after the main accumulation pass (api.ts lines 420-470). -/
def buildBehaviorMap (events : List BEvent) : List (String × BehaviorSummary) :=
  events.foldl (fun m e => bmUpdate m e.behavior_type e.duration_seconds)
    (seedMap (dedupF (events.map (·.behavior_type))))

/-- Heatmap cell map keyed by the JavaScript template string
`` `${behavior}-${hour}` ``; the update is the `Map.has`/`set`/mutate step. -/
def hmUpdate : List (String × Nat × Int) → String → Int → List (String × Nat × Int)
  | [], k, d => [(k, (1, d))]
  | (k', cd) :: rest, k, d =>
    if k' = k then (k', (cd.1 + 1, cd.2 + d)) :: rest else (k', cd) :: hmUpdate rest k d

/-- `heatmapMap.get`. -/
def hmLookup : List (String × Nat × Int) → String → Option (Nat × Int)
  | [], _ => none
  | (k', cd) :: rest, k => if k' = k then some cd else hmLookup rest k

/-- Insertion into a sorted list of strings. -/
def insertStr (x : String) : List String → List String
  | [] => [x]
  | y :: ys => if x ≤ y then x :: y :: ys else y :: insertStr x ys

/-- `Array.prototype.sort()` on strings (lexicographic ascending). -/
def insertionSortStr : List String → List String
  | [] => []
  | x :: xs => insertStr x (insertionSortStr xs)

/-- `generateHeatmapFromEvents` (api.ts lines 500-538), parameterized by the
externally supplied `getZooHour`. -/
def generateHeatmapFromEvents (gZ : String → Nat) (events : List BEvent) :
    List HourlyHeatmapData :=
  let hm := events.foldl (fun m e =>
      hmUpdate m (e.behavior_type ++ "-" ++ toString (gZ e.start_timestamp))
        e.duration_seconds)
    ([] : List (String × Nat × Int))
  let uniq := dedupF (events.map (·.behavior_type))
  let behaviors :=
    if 0 < uniq.length then insertionSortStr uniq
    else ["Pacing", "Recumbent", "Self-directed", "Non Recumbent"]
  behaviors.flatMap fun b =>
    (List.range 24).map fun hour =>
      match hmLookup hm (b ++ "-" ++ toString hour) with
      | some cd =>
        { behavior_type := b, hour := hour, count := cd.1, duration_seconds := cd.2 }
      | none => { behavior_type := b, hour := hour, count := 0, duration_seconds := 0 }

/-- `generateSummaryFromEvents` (api.ts lines 418-494), parameterized by the
externally supplied `getZooHour` used by its heatmap. -/
def generateSummaryFromEvents (gZ : String → Nat) (events : List BEvent)
    (_startDate _endDate : String) : DashboardSummary :=
  let m := buildBehaviorMap events
  let behaviors0 := m.map (·.2)
  let totalBehaviors := behaviors0.foldl (fun acc b => acc + b.count) 0
  let totalDuration := behaviors0.foldl (fun acc b => acc + b.total_duration_seconds) 0
  let behaviors := behaviors0.map fun b =>
    { b with
      average_duration_seconds :=
        if 0 < b.count then (b.total_duration_seconds : ℚ) / (b.count : ℚ) else 0,
      percentage_of_total :=
        if 0 < totalDuration then (b.total_duration_seconds : ℚ) / (totalDuration : ℚ) * 100
        else 0 }
  { total_behaviors := totalBehaviors,
    most_frequent_behavior :=
      match behaviors with
      | [] => "No Data"
      | b0 :: _ =>
        (behaviors.foldl (fun mx b => if mx.count < b.count then b else mx) b0).behavior_type,
    total_monitored_seconds := totalDuration,
    behaviors := behaviors,
    hourly_heatmap := generateHeatmapFromEvents gZ events }

/-- The durations of a label's events, in order. -/
def durationsOf (events : List BEvent) (b : String) : List Int :=
  (events.filter fun e => e.behavior_type = b).map (·.duration_seconds)

/-- `Modelled from the spec:` the minimum over strictly positive durations,
0 when there are none (claim C7's reading of `minDurationSeconds`). -/
def minPosList (l : List Int) : Int :=
  match l.filter fun d => 0 < d with
  | [] => 0
  | x :: xs => xs.foldl min x

/-- `Modelled from the spec:` the maximum over strictly positive durations,
0 when there are none (claim C7's reading of `maxDurationSeconds`). -/
def maxPosList (l : List Int) : Int :=
  (l.filter fun d => 0 < d).foldl max 0

-- ### Claim C10: heatmap fallback grid on the empty event list

/-- **C10.** On an empty Event list the heatmap is not empty: it has exactly
96 cells — all 24 hours for each of the four hard-coded fallback labels
"Pacing", "Recumbent", "Self-directed" and "Non Recumbent" — each cell with
zero count and zero duration. -/
theorem emptyHeatmap_confirmed (gZ : String → Nat) :
    (generateHeatmapFromEvents gZ []).length = 96 ∧
    (∀ c ∈ generateHeatmapFromEvents gZ [], c.count = 0 ∧ c.duration_seconds = 0 ∧
      c.hour < 24 ∧
      c.behavior_type ∈ ["Pacing", "Recumbent", "Self-directed", "Non Recumbent"]) ∧
    (∀ b ∈ ["Pacing", "Recumbent", "Self-directed", "Non Recumbent"], ∀ h : Nat, h < 24 →
      (⟨b, h, 0, 0⟩ : HourlyHeatmapData) ∈ generateHeatmapFromEvents gZ []) := by
  have hred : generateHeatmapFromEvents gZ [] = generateHeatmapFromEvents (fun _ => 0) [] :=
    rfl
  rw [hred]
  exact ⟨by decide, by decide, by decide⟩

-- ### Claim C7: per-label aggregation (min/max over positive durations)
theorem mem_dedupAux : ∀ (l seen : List String) (y : String),
    y ∈ dedupAux l seen ↔ (y ∈ l ∧ y ∉ seen) := by
  intro l
  induction l with
  | nil => simp [dedupAux]
  | cons x xs ih =>
    intro seen y
    by_cases hx : x ∈ seen
    · rw [dedupAux, if_pos hx, ih]
      by_cases hz : y = x
      · subst hz; simp [hx]
      · simp [hz]
    · rw [dedupAux, if_neg hx]
      by_cases hz : y = x
      · subst hz; simp [hx, ih]
      · simp only [List.mem_cons, ih, hz, false_or]
  
theorem nodup_dedupAux : ∀ (l seen : List String), (dedupAux l seen).Nodup := by
  intro l
  induction l with
  | nil => intro seen; simp [dedupAux]
  | cons x xs ih =>
    intro seen
    by_cases hx : x ∈ seen
    · rw [dedupAux, if_pos hx]; exact ih seen
    · rw [dedupAux, if_neg hx]
      refine List.nodup_cons.mpr ⟨?_, ih _⟩
      intro hmem
      exact ((mem_dedupAux xs (x :: seen) x).mp hmem).2 (List.mem_cons_self x seen)

theorem mem_dedupF (l : List String) (y : String) : y ∈ dedupF l ↔ y ∈ l := by
  simp [dedupF, mem_dedupAux]

theorem nodup_dedupF (l : List String) : (dedupF l).Nodup := nodup_dedupAux l []

-- accumEvent fold component lemmas
theorem accumFold_btype (l : List Int) : ∀ st : BehaviorSummary,
    (l.foldl accumEvent st).behavior_type = st.behavior_type := by
  induction l with
  | nil => intro st; rfl
  | cons d ds ih => intro st; rw [List.foldl_cons, ih]; rfl

theorem accumFold_count (l : List Int) : ∀ st : BehaviorSummary,
    (l.foldl accumEvent st).count = st.count + l.length := by
  induction l with
  | nil => intro st; simp
  | cons d ds ih =>
    intro st
    rw [List.foldl_cons, ih]
    simp [accumEvent]
    omega

theorem accumFold_total (l : List Int) : ∀ st : BehaviorSummary,
    (l.foldl accumEvent st).total_duration_seconds = st.total_duration_seconds + l.sum := by
  induction l with
  | nil => intro st; simp
  | cons d ds ih =>
    intro st
    rw [List.foldl_cons, ih]
    simp [accumEvent]
    omega

theorem accumFold_min (l : List Int) : ∀ st : BehaviorSummary,
    (l.foldl accumEvent st).min_duration_seconds
      = l.foldl (fun a d => if 0 < d then (if a = 0 then d else min a d) else a)
          st.min_duration_seconds := by
  induction l with
  | nil => intro st; rfl
  | cons d ds ih => intro st; rw [List.foldl_cons, ih]; rfl

theorem accumFold_max (l : List Int) : ∀ st : BehaviorSummary,
    (l.foldl accumEvent st).max_duration_seconds
      = l.foldl (fun a d => if 0 < d then max a d else a) st.max_duration_seconds := by
  induction l with
  | nil => intro st; rfl
  | cons d ds ih => intro st; rw [List.foldl_cons, ih]; rfl

theorem minFold_filter (l : List Int) : ∀ a : Int,
    l.foldl (fun a d => if 0 < d then (if a = 0 then d else min a d) else a) a
      = (l.filter fun d => 0 < d).foldl (fun a d => if a = 0 then d else min a d) a := by
  induction l with
  | nil => intro a; rfl
  | cons d ds ih =>
    intro a
    by_cases hd : 0 < d
    · simp [List.filter_cons, hd, ih]
    · simp [List.filter_cons, hd, ih]

theorem maxFold_filter (l : List Int) : ∀ a : Int,
    l.foldl (fun a d => if 0 < d then max a d else a) a
      = (l.filter fun d => 0 < d).foldl max a := by
  induction l with
  | nil => intro a; rfl
  | cons d ds ih =>
    intro a
    by_cases hd : 0 < d
    · simp [List.filter_cons, hd, ih]
    · simp [List.filter_cons, hd, ih]

theorem gFold_eq_minFold (xs : List Int) : ∀ a : Int, 0 < a → (∀ d ∈ xs, 0 < d) →
    xs.foldl (fun a d => if a = 0 then d else min a d) a = xs.foldl min a := by
  induction xs with
  | nil => intro a _ _; rfl
  | cons d ds ih =>
    intro a ha hall
    have hd : 0 < d := hall d (List.mem_cons_self d ds)
    rw [List.foldl_cons, List.foldl_cons, if_neg (by omega)]
    exact ih (min a d) (lt_min ha hd) fun d' hd' => hall d' (List.mem_cons_of_mem _ hd')

theorem min_of_accum (b : String) (l : List Int) :
    (l.foldl accumEvent (emptySummary b)).min_duration_seconds = minPosList l := by
  rw [accumFold_min]
  show l.foldl _ (0 : Int) = _
  rw [minFold_filter]
  cases hf : l.filter (fun d => 0 < d) with
  | nil => simp [minPosList, hf]
  | cons x xs =>
    have hx : 0 < x := by
      have := List.mem_filter.mp (hf ▸ List.mem_cons_self x xs)
      simpa using this.2
    have hall : ∀ d ∈ xs, 0 < d := by
      intro d hd
      have := List.mem_filter.mp (hf ▸ List.mem_cons_of_mem x hd)
      simpa using this.2
    simp only [minPosList, hf, List.foldl_cons, if_pos rfl]
    exact gFold_eq_minFold xs x hx hall

theorem max_of_accum (b : String) (l : List Int) :
    (l.foldl accumEvent (emptySummary b)).max_duration_seconds = maxPosList l := by
  rw [accumFold_max]
  show l.foldl _ (0 : Int) = _
  rw [maxFold_filter]
  rfl

theorem map_untouched (m : List (String × BehaviorSummary)) (k : String) (d : Int)
    (h : k ∉ m.map (·.1)) :
    (m.map fun p => if p.1 = k then (p.1, accumEvent p.2 d) else p) = m := by
  induction m with
  | nil => rfl
  | cons p rest ih =>
    simp only [List.map_cons, List.mem_cons] at h ⊢
    rw [if_neg (by intro he; exact h (Or.inl he.symm)), ih fun hm => h (Or.inr hm)]

theorem bmUpdate_eq_map (m : List (String × BehaviorSummary)) (k : String) (d : Int)
    (hnd : (m.map (·.1)).Nodup) (hk : k ∈ m.map (·.1)) :
    bmUpdate m k d = m.map fun p => if p.1 = k then (p.1, accumEvent p.2 d) else p := by
  induction m with
  | nil => cases hk
  | cons p rest ih =>
    obtain ⟨k', s⟩ := p
    simp only [List.map_cons] at hnd hk ⊢
    by_cases hpk : k' = k
    · subst hpk
      rw [show bmUpdate ((k', s) :: rest) k' d = (k', accumEvent s d) :: rest from by
        simp [bmUpdate]]
      rw [if_pos rfl, map_untouched rest k' d (List.nodup_cons.mp hnd).1]
    · rw [show bmUpdate ((k', s) :: rest) k d = (k', s) :: bmUpdate rest k d from by
        simp [bmUpdate, hpk]]
      rw [if_neg hpk, ih (List.nodup_cons.mp hnd).2
        (by rcases List.mem_cons.mp hk with h | h
            · exact absurd h.symm hpk
            · exact h)]

theorem foldl_build (events : List BEvent) :
    ∀ m : List (String × BehaviorSummary), (m.map (·.1)).Nodup →
      (∀ e ∈ events, e.behavior_type ∈ m.map (·.1)) →
      events.foldl (fun m e => bmUpdate m e.behavior_type e.duration_seconds) m
        = m.map fun p => (p.1, (durationsOf events p.1).foldl accumEvent p.2) := by
  induction events with
  | nil =>
    intro m _ _
    simp only [List.foldl_nil, durationsOf, List.filter_nil, List.map_nil, List.foldl_nil]
    exact (List.map_id m).symm
  | cons e es ih =>
    intro m hnd hall
    rw [List.foldl_cons,
      bmUpdate_eq_map m e.behavior_type e.duration_seconds hnd
        (hall e (List.mem_cons_self e es))]
    have hkeys : ((m.map fun p => if p.1 = e.behavior_type then (p.1, accumEvent p.2 e.duration_seconds) else p).map (·.1)) = m.map (·.1) := by
      rw [List.map_map]
      refine List.map_congr_left fun p _ => ?_
      by_cases hp : p.1 = e.behavior_type <;> simp [hp]
    rw [ih _ (by rw [hkeys]; exact hnd) (by rw [hkeys]; exact fun e' he' => hall e' (List.mem_cons_of_mem _ he'))]
    rw [List.map_map]
    refine List.map_congr_left fun p _ => ?_
    by_cases hp : p.1 = e.behavior_type
    · rw [Function.comp_apply, if_pos hp]
      have hd : durationsOf (e :: es) p.1 = e.duration_seconds :: durationsOf es p.1 := by
        simp [durationsOf, List.filter_cons, hp.symm]
      rw [hd, List.foldl_cons]
    · rw [Function.comp_apply, if_neg hp]
      have hd : durationsOf (e :: es) p.1 = durationsOf es p.1 := by
        have hfalse : (decide (e.behavior_type = p.1)) = false :=
          decide_eq_false fun h => hp h.symm
        simp only [durationsOf, List.filter_cons, hfalse, Bool.false_eq_true, if_false]
      rw [hd]

theorem build_shape (events : List BEvent) :
    buildBehaviorMap events
      = (dedupF (events.map (·.behavior_type))).map
          fun b => (b, (durationsOf events b).foldl accumEvent (emptySummary b)) := by
  have hkeys : (seedMap (dedupF (events.map (·.behavior_type)))).map (·.1)
      = dedupF (events.map (·.behavior_type)) := by
    rw [seedMap, List.map_map]
    exact List.map_id _
  rw [buildBehaviorMap,
    foldl_build events _ (by rw [hkeys]; exact nodup_dedupF _)
      (by rw [hkeys]
          intro e he
          exact (mem_dedupF _ _).mpr (List.mem_map_of_mem (·.behavior_type) he))]
  rw [seedMap, List.map_map]
  rfl

/-- **C7.** Every entry of the summary produced by the Aggregator satisfies:
`count` is the number of that label's events and `totalDurationSeconds` their
(zero-inclusive) sum, `averageDurationSeconds` is the zero-inclusive mean
`total/count`, while `minDurationSeconds`/`maxDurationSeconds` are computed
only over that label's events with `durationSeconds > 0` and remain 0 when
the label has no positive-duration events. -/
theorem aggregator_minmax (gZ : String → Nat) (events : List BEvent) (sd ed : String) :
    ∀ s ∈ (generateSummaryFromEvents gZ events sd ed).behaviors,
      s.count = (durationsOf events s.behavior_type).length ∧
      s.total_duration_seconds = (durationsOf events s.behavior_type).sum ∧
      s.min_duration_seconds = minPosList (durationsOf events s.behavior_type) ∧
      s.max_duration_seconds = maxPosList (durationsOf events s.behavior_type) ∧
      s.average_duration_seconds
        = ((durationsOf events s.behavior_type).sum : ℚ)
          / ((durationsOf events s.behavior_type).length : ℚ) := by
  intro s hs
  simp only [generateSummaryFromEvents] at hs
  rw [build_shape] at hs
  simp only [List.map_map, List.mem_map, Function.comp_apply] at hs
  obtain ⟨b, hb, rfl⟩ := hs
  have hbt : ((durationsOf events b).foldl accumEvent (emptySummary b)).behavior_type
      = b := by
    rw [accumFold_btype]
    rfl
  dsimp only
  rw [hbt]
  refine ⟨?_, ?_, min_of_accum b _, max_of_accum b _, ?_⟩
  · rw [accumFold_count]; simp [emptySummary]
  · rw [accumFold_total]; simp [emptySummary]
  · rw [accumFold_count, accumFold_total]
    show (if 0 < 0 + (durationsOf events b).length
        then ((0 + (durationsOf events b).sum : Int) : ℚ)
          / ((0 + (durationsOf events b).length : Nat) : ℚ)
        else 0) = _
    by_cases hlen : (durationsOf events b).length = 0
    · rw [if_neg (by omega)]
      rw [List.length_eq_zero.mp hlen]
      simp
    · rw [if_pos (by omega)]
      simp

/-- The claim's example: three "Pacing" events with durations 10, 0, 20. -/
def pacingEvents : List BEvent :=
  [{ behavior_type := "Pacing", duration_seconds := 10, start_timestamp := "s1" },
   { behavior_type := "Pacing", duration_seconds := 0, start_timestamp := "s2" },
   { behavior_type := "Pacing", duration_seconds := 20, start_timestamp := "s3" }]

/-- **C7, witness.** `aggregator_minmax` on the claim's example: three
"Pacing" events with durations 10, 0 and 20 yield min 10 (the zero-duration
event is excluded), max 20, and average 10 (the zero is included: 30/3). -/
theorem aggregator_minmax_witness :
    ∃ s ∈ (generateSummaryFromEvents (fun _ => 0) pacingEvents
        "2025-10-20" "2025-10-21").behaviors,
      s.min_duration_seconds = 10 ∧ s.max_duration_seconds = 20 ∧
      s.average_duration_seconds = 10 := by
  have hlen : (generateSummaryFromEvents (fun _ => 0) pacingEvents
      "2025-10-20" "2025-10-21").behaviors.map (·.behavior_type) = ["Pacing"] := by decide
  cases hh : (generateSummaryFromEvents (fun _ => 0) pacingEvents
      "2025-10-20" "2025-10-21").behaviors with
  | nil => rw [hh] at hlen; exact absurd hlen (by simp)
  | cons s rest =>
    have hmem : s ∈ (generateSummaryFromEvents (fun _ => 0) pacingEvents
        "2025-10-20" "2025-10-21").behaviors := by
      rw [hh]; exact List.mem_cons_self s rest
    have hbt : s.behavior_type = "Pacing" := by
      rw [hh, List.map_cons] at hlen
      exact (List.cons_eq_cons.mp hlen).1
    have h := aggregator_minmax (fun _ => 0) pacingEvents
      "2025-10-20" "2025-10-21" s hmem
    rw [hbt] at h
    have hd : durationsOf pacingEvents "Pacing" = [10, 0, 20] := by decide
    rw [hd] at h
    refine ⟨s, List.mem_cons_self s rest, h.2.2.1.trans (by decide),
      h.2.2.2.1.trans (by decide), h.2.2.2.2.trans (by norm_num)⟩

/-- **C10, witness.** `emptyHeatmap_confirmed` instantiated: the empty list's
heatmap has 96 cells and contains the zero cell for "Pacing" at hour 0. -/
theorem emptyHeatmap_confirmed_witness :
    (generateHeatmapFromEvents (fun _ => 0) []).length = 96 ∧
    (⟨"Pacing", 0, 0, 0⟩ : HourlyHeatmapData) ∈ generateHeatmapFromEvents (fun _ => 0) [] :=
  ⟨(emptyHeatmap_confirmed (fun _ => 0)).1,
   (emptyHeatmap_confirmed (fun _ => 0)).2.2 "Pacing" (by decide) 0 (by decide)⟩
